import Mathlib

/-!
# CTR_Redshift: colour settings clamp, LUT pipeline and hardware LUT port

A shallow embedding of `src/main.c` (`WriteAt`, `WriteAll`, `ClampCS`, `ApplyCS`
and the clamp/apply step of `main`) together with the properties of the
specification that concern them.

Conventions of the embedding

* `u8`, `u16`, `u32` values are natural numbers; a store into a narrower cell is
  written with an explicit `% 2^w`.
* `float` values are IEEE-754 binary32 bit patterns (`F32`); only the ordered
  comparisons `<` and `>` are used by the program, and they are defined on the
  bit pattern, NaN included.
* `redshift.h` and `colorramp.h` are not part of the sources: the bounds
  `MIN_TEMP`, ..., `NEUTRAL_TEMP` are the fields of a parameter `Bounds`, and
  `colorramp_fill` is a function parameter of `ApplyCS`.
* `GSPGPU_WriteHWRegs` belongs to the platform library; it is interpreted on a
  register model `HW` (one index register, one data register and one 256-slot
  LUT per screen) that also records every access.
-/

namespace CTRRedshift

/-! ## IEEE-754 binary32 values and their ordered comparisons -/

/-- A C `float`: the IEEE-754 binary32 bit pattern, read modulo `2^32`. -/
structure F32 where
  bits : Nat
deriving DecidableEq, Repr

namespace F32

/-- Sign bit (bit 31). -/
def sign (x : F32) : Nat := (x.bits % 4294967296) / 2147483648

/-- Exponent and fraction (bits 30..0). -/
def mag (x : F32) : Nat := x.bits % 2147483648

/-- NaN: exponent all ones and a non-zero fraction. -/
def isNaN (x : F32) : Bool := decide (0x7F800000 < x.mag)

/-- Order key of a non-NaN value: sign-magnitude read as an integer, so that
`-0.0` and `+0.0` share the key `0` and the infinities are the extremes. -/
def key (x : F32) : Int := if x.sign = 0 then (x.mag : Int) else -(x.mag : Int)

/-- The C comparison `a < b` on floats: false as soon as one side is NaN. -/
def lt (a b : F32) : Bool := !a.isNaN && !b.isNaN && decide (a.key < b.key)

/-- The C comparison `a > b` on floats. -/
def gt (a b : F32) : Bool := lt b a

/-- The C comparison `a <= b` on floats: false as soon as one side is NaN. -/
def le (a b : F32) : Bool := !a.isNaN && !b.isNaN && decide (a.key ≤ b.key)

/-- Membership of the closed interval `[lo, hi]`, with the C comparisons. -/
def inRange (lo hi x : F32) : Bool := le lo x && le x hi

end F32

/-! ## Settings and their bounds -/

/-- The bound macros of `redshift.h` (absent from the sources), as parameters.
The float bounds are taken as `float` values. -/
structure Bounds where
  MIN_TEMP : Int
  MAX_TEMP : Int
  NEUTRAL_TEMP : Int
  MIN_GAMMA : F32
  MAX_GAMMA : F32
  MIN_BRIGHTNESS : F32
  MAX_BRIGHTNESS : F32

/-- The bounds are well ordered: each minimum is at most its maximum. -/
def Bounds.ordered (B : Bounds) : Prop :=
  B.MIN_TEMP ≤ B.MAX_TEMP ∧ F32.le B.MIN_GAMMA B.MAX_GAMMA = true ∧
    F32.le B.MIN_BRIGHTNESS B.MAX_BRIGHTNESS = true

/-- The struct `color_setting_t`: `int temperature; float gamma[3]; float brightness;`
with `gamma[0]`, `gamma[1]`, `gamma[2]` as the fields `gamma0`, `gamma1`,
`gamma2`. -/
structure color_setting_t where
  temperature : Int
  gamma0 : F32
  gamma1 : F32
  gamma2 : F32
  brightness : F32
deriving DecidableEq, Repr

/-- The function `ClampCS` (main.c 87-101): ten guarded assignments, in source order. -/
def ClampCS (B : Bounds) (cs : color_setting_t) : color_setting_t :=
  let cs := if cs.temperature < B.MIN_TEMP then { cs with temperature := B.MIN_TEMP } else cs
  let cs := if cs.temperature > B.MAX_TEMP then { cs with temperature := B.MAX_TEMP } else cs
  let cs := if F32.lt cs.gamma0 B.MIN_GAMMA then { cs with gamma0 := B.MIN_GAMMA } else cs
  let cs := if F32.lt cs.gamma1 B.MIN_GAMMA then { cs with gamma1 := B.MIN_GAMMA } else cs
  let cs := if F32.lt cs.gamma2 B.MIN_GAMMA then { cs with gamma2 := B.MIN_GAMMA } else cs
  let cs := if F32.gt cs.gamma0 B.MAX_GAMMA then { cs with gamma0 := B.MAX_GAMMA } else cs
  let cs := if F32.gt cs.gamma1 B.MAX_GAMMA then { cs with gamma1 := B.MAX_GAMMA } else cs
  let cs := if F32.gt cs.gamma2 B.MAX_GAMMA then { cs with gamma2 := B.MAX_GAMMA } else cs
  let cs := if F32.lt cs.brightness B.MIN_BRIGHTNESS then
    { cs with brightness := B.MIN_BRIGHTNESS } else cs
  let cs := if F32.gt cs.brightness B.MAX_BRIGHTNESS then
    { cs with brightness := B.MAX_BRIGHTNESS } else cs
  cs

/-- The default setting built in `main` (main.c 180-186): `NEUTRAL_TEMP`,
`gamma = (1.0F, 1.0F, 1.0F)`, `brightness = 1.0F` (`1.0F` is `0x3F800000`). -/
def defaultCS (B : Bounds) : color_setting_t :=
  { temperature := B.NEUTRAL_TEMP
    gamma0 := ⟨0x3F800000⟩
    gamma1 := ⟨0x3F800000⟩
    gamma2 := ⟨0x3F800000⟩
    brightness := ⟨0x3F800000⟩ }

/-- The range invariant of a setting (spec section 3). -/
def color_setting_t.valid (B : Bounds) (cs : color_setting_t) : Prop :=
  (B.MIN_TEMP ≤ cs.temperature ∧ cs.temperature ≤ B.MAX_TEMP) ∧
  F32.inRange B.MIN_GAMMA B.MAX_GAMMA cs.gamma0 = true ∧
  F32.inRange B.MIN_GAMMA B.MAX_GAMMA cs.gamma1 = true ∧
  F32.inRange B.MIN_GAMMA B.MAX_GAMMA cs.gamma2 = true ∧
  F32.inRange B.MIN_BRIGHTNESS B.MAX_BRIGHTNESS cs.brightness = true

/-- Sample bounds, the values of upstream Redshift: 1000 K .. 25000 K, neutral
6500 K, gamma in `[0.1F, 10.0F]`, brightness in `[0.1F, 1.0F]`. -/
def sampleBounds : Bounds :=
  { MIN_TEMP := 1000
    MAX_TEMP := 25000
    NEUTRAL_TEMP := 6500
    MIN_GAMMA := ⟨0x3DCCCCCD⟩
    MAX_GAMMA := ⟨0x41200000⟩
    MIN_BRIGHTNESS := ⟨0x3DCCCCCD⟩
    MAX_BRIGHTNESS := ⟨0x3F800000⟩ }

/-! ## Hardware LUT port -/

/-- Register state of one screen: the index register, the 256-slot LUT behind
the data register, and the history of the slots stored into. -/
structure ScreenRegs where
  index : Nat
  lut : Nat → Nat
  stored : List Nat

/-- A data-register write stores into the slot selected by the low byte of the
index register. -/
def ScreenRegs.writeData (s : ScreenRegs) (v : Nat) : ScreenRegs :=
  { s with
    lut := Function.update s.lut (s.index % 256) v
    stored := s.stored ++ [s.index % 256] }

/-- Register model of the LUT hardware of both screens, as plain mutable
storage: `scr0` sits behind registers `0x400480` (index) and `0x400484` (data),
`scr1` behind `0x400580` and `0x400584`; `log` records every register write as
`(address, value)`, oldest first. -/
structure HW where
  scr0 : ScreenRegs
  scr1 : ScreenRegs
  log : List (Nat × Nat)

/-- The call `GSPGPU_WriteHWRegs(addr, &val, 4)` on the register model: one 32-bit
register write. Addresses other than the four LUT registers have no effect on
the model besides the log entry. -/
def GSPGPU_WriteHWRegs (addr val : Nat) (hw : HW) : HW :=
  let hw := { hw with log := hw.log ++ [(addr, val)] }
  if addr = 0x400480 then { hw with scr0 := { hw.scr0 with index := val } }
  else if addr = 0x400484 then { hw with scr0 := hw.scr0.writeData val }
  else if addr = 0x400580 then { hw with scr1 := { hw.scr1 with index := val } }
  else if addr = 0x400584 then { hw with scr1 := hw.scr1.writeData val }
  else hw

/-- The C expression `a & b` on two `int`s, as the 32-bit pattern of the
result. -/
def int_and (a b : Int) : Nat :=
  (a % 4294967296).toNat &&& (b % 4294967296).toNat

/-- The index register of a screen, `screen & 1 ? 0x400580 : 0x400480`. -/
def indexReg (screen : Int) : Nat := if int_and screen 1 ≠ 0 then 0x400580 else 0x400480

/-- The data register of a screen, `screen & 1 ? 0x400584 : 0x400484`. -/
def dataReg (screen : Int) : Nat := if int_and screen 1 ≠ 0 then 0x400584 else 0x400484

/-- The function `WriteAt` (main.c 57-62); `dst` is the word `*dst`, `idx` arrives as `u8`. -/
def WriteAt (dst : Nat) (idx : Nat) (screen : Int) (hw : HW) : HW :=
  let idx := idx % 256
  let pos := idx &&& 0xFF
  let hw := GSPGPU_WriteHWRegs (if int_and screen 1 ≠ 0 then 0x400580 else 0x400480) pos hw
  GSPGPU_WriteHWRegs (if int_and screen 1 ≠ 0 then 0x400584 else 0x400484) dst hw

/-- The `do ... while(++idx < 256)` loop of `WriteAll` (main.c 79-83) from the
state `(dst, idx)`; `t` is the table and `dst` the offset of the pointer into
it. `idx` is a `u32` that never exceeds 256, so it cannot wrap. -/
def WriteAll_loop (t : Nat → Nat) (screen : Int) (dst idx : Nat) (hw : HW) : HW :=
  let hw := WriteAt (t dst) idx screen hw
  let dst := dst + 1
  let idx := idx + 1
  if idx < 256 then WriteAll_loop t screen dst idx hw else hw
termination_by 256 - idx
decreasing_by omega

/-- The function `WriteAll` (main.c 76-84). -/
def WriteAll (t : Nat → Nat) (screen : Int) (hw : HW) : HW :=
  WriteAll_loop t screen 0 0 hw

/-- Registers and LUT of the screen selected by `screen & 1`. -/
def HW.sel (hw : HW) (screen : Int) : ScreenRegs :=
  if int_and screen 1 ≠ 0 then hw.scr1 else hw.scr0

/-- Registers and LUT of the screen not selected by `screen & 1`. -/
def HW.other (hw : HW) (screen : Int) : ScreenRegs :=
  if int_and screen 1 ≠ 0 then hw.scr0 else hw.scr1

/-- The register accesses of one bulk write of `t` to `screen`: for each index
`0, 1, ..., 255` in turn, the index and then the table word. -/
def bulkTrace (t : Nat → Nat) (screen : Int) : List (Nat × Nat) :=
  (List.range 256).flatMap (fun i => [(indexReg screen, i), (dataReg screen, t i)])

/-! ## The pipeline of `ApplyCS` -/

/-- One entry of the device LUT: `struct { u8 r; u8 g; u8 b; u8 z; }`. -/
structure Px where
  r : Nat
  g : Nat
  b : Nat
  z : Nat
deriving DecidableEq, Repr

/-- Store of a `u32` over an entry, `*(u32*)&px[i] = w` (little endian,
`0x00BBGGRR`). -/
def Px.ofU32 (w : Nat) : Px :=
  { r := w % 256, g := (w / 256) % 256, b := (w / 65536) % 256, z := (w / 16777216) % 256 }

/-- Load of an entry as a `u32`, `((u32*)px)[i]`. -/
def Px.toU32 (p : Px) : Nat :=
  p.r % 256 + 256 * (p.g % 256) + 65536 * (p.b % 256) + 16777216 * (p.z % 256)

/-- Initial content of the two `malloc`ed buffers of `ApplyCS` (allocation is
assumed to succeed; the content is whatever the heap holds). -/
structure Scratch where
  c : Nat → Nat
  px : Nat → Px

/-- The loop `do body while(++i);` with a `u8` counter `i`: runs `body`, then
increments `i` modulo 256 and repeats while the result is non-zero. Returns the
final counter and state. -/
def do_while_u8 {σ : Type} (body : Nat → σ → σ) (i : Nat) (s : σ) : Nat × σ :=
  let s := body i s
  let i := (i + 1) % 256
  if i ≠ 0 then do_while_u8 body i s else (i, s)
termination_by 255 - i % 256
decreasing_by omega

/-- Body of the identity fill (main.c 123): `*(u32*)&px[i] = i | (i << 8) | (i << 16)`. -/
def identity_body (i : Nat) (px : Nat → Px) : Nat → Px :=
  Function.update px i (Px.ofU32 ((i ||| (i <<< 8) ||| (i <<< 16)) % 4294967296))

/-- Body of the expansion (main.c 131-133): three `u16` stores into `c`. -/
def expand_body (px : Nat → Px) (i : Nat) (c : Nat → Nat) : Nat → Nat :=
  let c := Function.update c (i + 0x000) (((px i).r ||| ((px i).r <<< 8)) % 65536)
  let c := Function.update c (i + 0x100) (((px i).g ||| ((px i).g <<< 8)) % 65536)
  let c := Function.update c (i + 0x200) (((px i).b ||| ((px i).b <<< 8)) % 65536)
  c

/-- Body of the truncation (main.c 143-145): three `u8` stores into `px[i]`;
each `u16` cell of `c` is read modulo `2^16`. -/
def truncate_body (c : Nat → Nat) (i : Nat) (px : Nat → Px) : Nat → Px :=
  let px := Function.update px i { px i with r := ((c (i + 0x000) % 65536) >>> 8) % 256 }
  let px := Function.update px i { px i with g := ((c (i + 0x100) % 65536) >>> 8) % 256 }
  let px := Function.update px i { px i with b := ((c (i + 0x200) % 65536) >>> 8) % 256 }
  px

/-- The expansion loop of `ApplyCS` (main.c 129-135), entered with `i = 0`. -/
def Expand (px : Nat → Px) (c : Nat → Nat) : Nat → Nat :=
  (do_while_u8 (expand_body px) 0 c).2

/-- The truncation loop of `ApplyCS` (main.c 141-147), entered with `i = 0`. -/
def Truncate (c : Nat → Nat) (px : Nat → Px) : Nat → Px :=
  (do_while_u8 (truncate_body c) 0 px).2

/-- State of `ApplyCS` at the call of `colorramp_fill` (main.c 106-135): the
counter `i`, the entries `px` and the working curve `c`. -/
def ApplyCS_prepare (m : Scratch) : Nat × (Nat → Px) × (Nat → Nat) :=
  let c := m.c
  let i := 0
  let px := m.px
  let l := do_while_u8 identity_body i px
  let i := l.1
  let px := l.2
  let l := do_while_u8 (expand_body px) i c
  let i := l.1
  let c := l.2
  (i, px, c)

/-- Content of the `0x300` cells of the buffer `c`; the model carries no
content outside the allocation. -/
def cells (c : Nat → Nat) : Nat → Nat := fun k => if k < 0x300 then c k else 0

/-- The entries `px` that `ApplyCS` hands to `WriteAll` (main.c 106-147).
`colorramp_fill c cs` is the content of the working curve after the call
`colorramp_fill(c + 0x000, c + 0x100, c + 0x200, 0x100, cs)` on the content
`c` (red at `0x000`, green at `0x100`, blue at `0x200`). -/
def ApplyCS_px (colorramp_fill : (Nat → Nat) → color_setting_t → (Nat → Nat))
    (cs : color_setting_t) (m : Scratch) : Nat → Px :=
  let st := ApplyCS_prepare m
  let i := st.1
  let px := st.2.1
  let c := st.2.2
  let c := colorramp_fill (cells c) cs
  let l := do_while_u8 (truncate_body c) i px
  l.2

/-- The function `ApplyCS` (main.c 104-155): the entries are written as `(u32*)px`. -/
def ApplyCS (colorramp_fill : (Nat → Nat) → color_setting_t → (Nat → Nat))
    (cs : color_setting_t) (screen : Int) (m : Scratch) (hw : HW) : HW :=
  WriteAll (fun k => (ApplyCS_px colorramp_fill cs m k).toU32) screen hw

/-- The key mask `KEY_A` of the platform library, `BIT(0)`. -/
def KEY_A : Nat := 1

/-- The key mask `KEY_B` of the platform library, `BIT(1)`. -/
def KEY_B : Nat := 2

/-- The clamp-and-apply step of the main loop (main.c 258-267); `m1` and `m2`
are the heap contents met by the two possible calls of `ApplyCS`. -/
def main_apply (B : Bounds) (colorramp_fill : (Nat → Nat) → color_setting_t → (Nat → Nat))
    (kDown kHeld : Nat) (cs : color_setting_t) (m1 m2 : Scratch) (hw : HW) :
    color_setting_t × HW :=
  if kDown ≠ 0 then
    let cs := ClampCS B cs
    let hw := if kHeld &&& KEY_A ≠ 0 then ApplyCS colorramp_fill cs 1 m1 hw else hw
    let hw := if kHeld &&& KEY_B ≠ 0 then ApplyCS colorramp_fill cs 0 m2 hw else hw
    (cs, hw)
  else (cs, hw)

/-- The identity ramp entry `i`: `r = g = b = i`, padding `0`. -/
def identityPx (i : Nat) : Px := { r := i, g := i, b := i, z := 0 }

/-- The working curve of the identity ramp: `257 * i` for each channel at index
`i`, red at `0x000`, green at `0x100`, blue at `0x200`. -/
def identityCurve : Nat → Nat :=
  fun k =>
    if k < 256 then 257 * k
    else if k < 512 then 257 * (k - 256)
    else if k < 768 then 257 * (k - 512)
    else 0

/-- A probe for the setting received by the curve generator: every cell of the
working curve becomes the temperature (as a `u16`). -/
def probe_fill (_c : Nat → Nat) (cs : color_setting_t) : Nat → Nat :=
  fun _ => (cs.temperature % 65536).toNat

/-- The no-op curve generator. -/
def noop_fill (c : Nat → Nat) (_cs : color_setting_t) : Nat → Nat := c

/-! ## Concrete inputs -/

/-- A hardware state with both LUTs zeroed and nothing logged. -/
def sampleHW : HW :=
  { scr0 := { index := 0, lut := fun _ => 0, stored := [] }
    scr1 := { index := 0, lut := fun _ => 0, stored := [] }
    log := [] }

/-- Some heap content for the two buffers of `ApplyCS`. -/
def sampleScratch : Scratch :=
  { c := fun _ => 0xBEEF, px := fun _ => { r := 1, g := 2, b := 3, z := 4 } }

/-- A packed device LUT with a non-zero padding byte. -/
def sampleLUT : Nat → Px :=
  fun i => { r := i % 256, g := 255 - i % 256, b := 7, z := 200 }

/-- A setting whose `gamma[0]` is a quiet NaN (`0x7FC00000`), the rest default. -/
def nanSetting : color_setting_t :=
  { temperature := 6500
    gamma0 := ⟨0x7FC00000⟩
    gamma1 := ⟨0x3F800000⟩
    gamma2 := ⟨0x3F800000⟩
    brightness := ⟨0x3F800000⟩ }

/-- A setting out of range in every field: 30000 K, `gamma = (0.0F, +inf, 1.0F)`,
`brightness = -inf`. -/
def wildSetting : color_setting_t :=
  { temperature := 30000
    gamma0 := ⟨0⟩
    gamma1 := ⟨0x7F800000⟩
    gamma2 := ⟨0x3F800000⟩
    brightness := ⟨0xFF800000⟩ }

/-- Per-field effect of `ClampCS` on the `int` field: the two guarded
assignments in sequence. -/
def clamp_int (lo hi x : Int) : Int :=
  let y := if x < lo then lo else x
  if y > hi then hi else y

/-- Per-field effect of `ClampCS` on a `float` field: the two guarded
assignments in sequence. -/
def clamp_f32 (lo hi x : F32) : F32 :=
  let y := if F32.lt x lo then lo else x
  if F32.gt y hi then hi else y

/-! ## Clamp: helper lemmas -/

theorem ite_mk_setting (c : Prop) [Decidable c] (t t' : Int)
    (g0 g0' g1 g1' g2 g2' b b' : F32) :
    (if c then (⟨t, g0, g1, g2, b⟩ : color_setting_t) else ⟨t', g0', g1', g2', b'⟩) =
      ⟨if c then t else t', if c then g0 else g0', if c then g1 else g1',
        if c then g2 else g2', if c then b else b'⟩ := by
  split_ifs <;> rfl

/-- The function `ClampCS` acts on every field by the two guarded assignments of that field. -/
theorem ClampCS_fields (B : Bounds) (cs : color_setting_t) :
    ClampCS B cs =
      { temperature := clamp_int B.MIN_TEMP B.MAX_TEMP cs.temperature
        gamma0 := clamp_f32 B.MIN_GAMMA B.MAX_GAMMA cs.gamma0
        gamma1 := clamp_f32 B.MIN_GAMMA B.MAX_GAMMA cs.gamma1
        gamma2 := clamp_f32 B.MIN_GAMMA B.MAX_GAMMA cs.gamma2
        brightness := clamp_f32 B.MIN_BRIGHTNESS B.MAX_BRIGHTNESS cs.brightness } := by
  cases cs with
  | mk t g0 g1 g2 b =>
    unfold ClampCS
    lift_lets
    repeat (intro x; simp -zeta only [x, ite_mk_setting, ite_self]; clear x)
    simp only [clamp_int, clamp_f32, gt_iff_lt]

theorem F32.lt_iff (a b : F32) :
    F32.lt a b = true ↔ a.isNaN = false ∧ b.isNaN = false ∧ a.key < b.key := by
  simp [F32.lt, and_assoc]

theorem F32.le_iff (a b : F32) :
    F32.le a b = true ↔ a.isNaN = false ∧ b.isNaN = false ∧ a.key ≤ b.key := by
  simp [F32.le, and_assoc]

theorem F32.lt_eq_false_iff (a b : F32) :
    F32.lt a b = false ↔ ¬ (a.isNaN = false ∧ b.isNaN = false ∧ a.key < b.key) := by
  rw [← F32.lt_iff]; simp

theorem clamp_int_idem (lo hi x : Int) :
    clamp_int lo hi (clamp_int lo hi x) = clamp_int lo hi x := by
  simp only [clamp_int]
  split_ifs <;> omega

theorem clamp_int_of_mem (lo hi x : Int) (h1 : lo ≤ x) (h2 : x ≤ hi) :
    clamp_int lo hi x = x := by
  simp only [clamp_int]
  split_ifs <;> omega

theorem clamp_int_mem (lo hi x : Int) (h : lo ≤ hi) :
    lo ≤ clamp_int lo hi x ∧ clamp_int lo hi x ≤ hi := by
  simp only [clamp_int]
  split_ifs <;> omega

theorem clamp_int_below (lo hi x : Int) (h : lo ≤ hi) (hx : x < lo) :
    clamp_int lo hi x = lo := by
  simp only [clamp_int]
  split_ifs <;> omega

theorem clamp_int_above (lo hi x : Int) (hx : x > hi) : clamp_int lo hi x = hi := by
  simp only [clamp_int]
  split_ifs <;> omega

theorem clamp_f32_cases (lo hi x : F32) :
    clamp_f32 lo hi x =
      if F32.lt x lo = true then (if F32.lt hi lo = true then hi else lo)
      else (if F32.lt hi x = true then hi else x) := by
  simp only [clamp_f32, F32.gt]
  split_ifs <;> rfl

theorem clamp_f32_idem (lo hi x : F32) :
    clamp_f32 lo hi (clamp_f32 lo hi x) = clamp_f32 lo hi x := by
  have hhi : F32.lt hi hi = false := by
    rw [F32.lt_eq_false_iff]; intro h; omega
  have hlo : F32.lt lo lo = false := by
    rw [F32.lt_eq_false_iff]; intro h; omega
  rw [clamp_f32_cases lo hi x]
  by_cases h1 : F32.lt x lo = true <;> by_cases h2 : F32.lt hi lo = true <;>
    by_cases h3 : F32.lt hi x = true <;>
    simp [h1, h2, h3, hhi, hlo, clamp_f32_cases]

theorem clamp_f32_of_mem (lo hi x : F32) (h : F32.inRange lo hi x = true) :
    clamp_f32 lo hi x = x := by
  simp only [F32.inRange, Bool.and_eq_true, F32.le_iff] at h
  have h1 : F32.lt x lo = false := by
    rw [F32.lt_eq_false_iff]; intro h'; omega
  have h2 : F32.lt hi x = false := by
    rw [F32.lt_eq_false_iff]; intro h'; omega
  simp [clamp_f32_cases, h1, h2]

theorem clamp_f32_below (lo hi x : F32) (h : F32.le lo hi = true) (hx : F32.lt x lo = true) :
    clamp_f32 lo hi x = lo := by
  have h2 : F32.lt hi lo = false := by
    rw [F32.le_iff] at h
    rw [F32.lt_eq_false_iff]; intro h'; omega
  simp [clamp_f32_cases, hx, h2]

theorem clamp_f32_above (lo hi x : F32) (hx : F32.gt x hi = true) :
    clamp_f32 lo hi x = hi := by
  simp only [F32.gt] at hx
  by_cases h1 : F32.lt x lo = true
  · have h2 : F32.lt hi lo = true := by
      rw [F32.lt_iff] at hx h1 ⊢
      refine ⟨hx.1, h1.2.1, ?_⟩
      omega
    simp [clamp_f32_cases, h1, h2]
  · simp [clamp_f32_cases, h1, hx]

theorem clamp_f32_nan (lo hi x : F32) (hx : x.isNaN = true) : clamp_f32 lo hi x = x := by
  have h1 : F32.lt x lo = false := by
    rw [F32.lt_eq_false_iff]; intro h'; simp [hx] at h'
  have h2 : F32.lt hi x = false := by
    rw [F32.lt_eq_false_iff]; intro h'; simp [hx] at h'
  simp [clamp_f32_cases, h1, h2]

theorem clamp_f32_mem (lo hi x : F32) (h : F32.le lo hi = true) (hx : x.isNaN = false) :
    F32.inRange lo hi (clamp_f32 lo hi x) = true := by
  have hb := (F32.le_iff lo hi).1 h
  have h2 : F32.lt hi lo = false := by
    rw [F32.lt_eq_false_iff]; intro h'; omega
  rw [clamp_f32_cases]
  by_cases h1 : F32.lt x lo = true
  · rw [if_pos h1, if_neg (by simp [h2])]
    simp only [F32.inRange, Bool.and_eq_true, F32.le_iff]
    exact ⟨⟨hb.1, hb.1, le_refl _⟩, hb.1, hb.2.1, hb.2.2⟩
  · by_cases h3 : F32.lt hi x = true
    · rw [if_neg h1, if_pos h3]
      simp only [F32.inRange, Bool.and_eq_true, F32.le_iff]
      exact ⟨⟨hb.1, hb.2.1, hb.2.2⟩, hb.2.1, hb.2.1, le_refl _⟩
    · rw [if_neg h1, if_neg h3]
      simp only [F32.inRange, Bool.and_eq_true, F32.le_iff]
      simp only [Bool.not_eq_true] at h1 h3
      rw [F32.lt_eq_false_iff] at h1 h3
      refine ⟨⟨hb.1, hx, ?_⟩, hx, hb.2.1, ?_⟩
      · by_contra hc
        exact h1 ⟨hx, hb.1, by omega⟩
      · by_contra hc
        exact h3 ⟨hb.2.1, hx, by omega⟩

theorem clamp_f32_choice (lo hi x : F32) :
    clamp_f32 lo hi x = x ∨ clamp_f32 lo hi x = lo ∨ clamp_f32 lo hi x = hi := by
  rw [clamp_f32_cases]
  split_ifs <;> simp

/-! ## Hardware port: helper lemmas -/

theorem and_0xFF (x : Nat) : x % 256 &&& 0xFF = x % 256 := by
  have h := Nat.and_pow_two_sub_one_eq_mod (x % 256) 8
  simpa using h

theorem int_and_one (screen : Int) : int_and screen 1 = (screen % 2).toNat := by
  unfold int_and
  have h1 : ((1 : Int) % 4294967296).toNat = 1 := by norm_num
  rw [h1, Nat.and_one_is_mod]
  omega

theorem write_index0 (v : Nat) (hw : HW) :
    GSPGPU_WriteHWRegs 0x400480 v hw =
      { scr0 := { hw.scr0 with index := v }, scr1 := hw.scr1,
        log := hw.log ++ [(0x400480, v)] } := rfl

theorem write_data0 (v : Nat) (hw : HW) :
    GSPGPU_WriteHWRegs 0x400484 v hw =
      { scr0 := hw.scr0.writeData v, scr1 := hw.scr1, log := hw.log ++ [(0x400484, v)] } := rfl

theorem write_index1 (v : Nat) (hw : HW) :
    GSPGPU_WriteHWRegs 0x400580 v hw =
      { scr0 := hw.scr0, scr1 := { hw.scr1 with index := v },
        log := hw.log ++ [(0x400580, v)] } := rfl

theorem write_data1 (v : Nat) (hw : HW) :
    GSPGPU_WriteHWRegs 0x400584 v hw =
      { scr0 := hw.scr0, scr1 := hw.scr1.writeData v, log := hw.log ++ [(0x400584, v)] } := rfl

theorem WriteAt_bit0 (d i : Nat) (screen : Int) (hw : HW) (h : int_and screen 1 = 0) :
    WriteAt d i screen hw =
      GSPGPU_WriteHWRegs 0x400484 d (GSPGPU_WriteHWRegs 0x400480 (i % 256) hw) := by
  simp only [WriteAt, and_0xFF, h, ne_eq, not_true_eq_false, if_false]

theorem WriteAt_bit1 (d i : Nat) (screen : Int) (hw : HW) (h : int_and screen 1 ≠ 0) :
    WriteAt d i screen hw =
      GSPGPU_WriteHWRegs 0x400584 d (GSPGPU_WriteHWRegs 0x400580 (i % 256) hw) := by
  simp only [WriteAt, and_0xFF, h, ne_eq, not_false_eq_true, if_true]

theorem WriteAt_log (d i : Nat) (screen : Int) (hw : HW) :
    (WriteAt d i screen hw).log = hw.log ++ [(indexReg screen, i % 256), (dataReg screen, d)] := by
  by_cases h : int_and screen 1 = 0
  · rw [WriteAt_bit0 d i screen hw h, write_index0, write_data0]
    simp [indexReg, dataReg, h]
  · rw [WriteAt_bit1 d i screen hw h, write_index1, write_data1]
    simp [indexReg, dataReg, h]

theorem WriteAt_sel (d i : Nat) (screen : Int) (hw : HW) :
    (WriteAt d i screen hw).sel screen =
      { index := i % 256
        lut := Function.update (hw.sel screen).lut (i % 256) d
        stored := (hw.sel screen).stored ++ [i % 256] } := by
  by_cases h : int_and screen 1 = 0
  · rw [WriteAt_bit0 d i screen hw h, write_index0, write_data0]
    simp [HW.sel, h, ScreenRegs.writeData]
  · rw [WriteAt_bit1 d i screen hw h, write_index1, write_data1]
    simp [HW.sel, h, ScreenRegs.writeData]

theorem WriteAt_other (d i : Nat) (screen : Int) (hw : HW) :
    (WriteAt d i screen hw).other screen = hw.other screen := by
  by_cases h : int_and screen 1 = 0
  · rw [WriteAt_bit0 d i screen hw h, write_index0, write_data0]
    simp [HW.other, h]
  · rw [WriteAt_bit1 d i screen hw h, write_index1, write_data1]
    simp [HW.other, h]

theorem WriteAll_loop_eq (t : Nat → Nat) (screen : Int) (n : Nat) :
    ∀ (k : Nat) (hw : HW), k + n = 255 →
      WriteAll_loop t screen k k hw =
        (List.range' k (n + 1)).foldl (fun hw i => WriteAt (t i) i screen hw) hw := by
  induction n with
  | zero =>
    intro k hw hk
    have hk' : k = 255 := by omega
    subst hk'
    rw [WriteAll_loop]
    simp [List.range']
  | succ n ih =>
    intro k hw hk
    rw [WriteAll_loop]
    have h1 : k + 1 < 256 := by omega
    simp only [h1, if_true]
    rw [ih (k + 1) _ (by omega)]
    rfl

theorem WriteAll_eq_foldl (t : Nat → Nat) (screen : Int) (hw : HW) :
    WriteAll t screen hw =
      (List.range 256).foldl (fun hw i => WriteAt (t i) i screen hw) hw := by
  unfold WriteAll
  rw [WriteAll_loop_eq t screen 255 0 hw (by omega), List.range_eq_range']

theorem foldl_WriteAt_log (t : Nat → Nat) (screen : Int) (l : List Nat) :
    ∀ hw : HW, (∀ i ∈ l, i < 256) →
      (l.foldl (fun hw i => WriteAt (t i) i screen hw) hw).log =
        hw.log ++ l.flatMap (fun i => [(indexReg screen, i), (dataReg screen, t i)]) := by
  induction l with
  | nil => intro hw _; simp
  | cons x xs ih =>
    intro hw h
    have hx : x % 256 = x := Nat.mod_eq_of_lt (h x (List.mem_cons_self _ _))
    rw [List.foldl_cons, ih _ (fun i hi => h i (List.mem_cons_of_mem _ hi)), WriteAt_log, hx]
    simp

theorem foldl_WriteAt_stored (t : Nat → Nat) (screen : Int) (l : List Nat) :
    ∀ hw : HW, (∀ i ∈ l, i < 256) →
      ((l.foldl (fun hw i => WriteAt (t i) i screen hw) hw).sel screen).stored =
        (hw.sel screen).stored ++ l := by
  induction l with
  | nil => intro hw _; simp
  | cons x xs ih =>
    intro hw h
    have hx : x % 256 = x := Nat.mod_eq_of_lt (h x (List.mem_cons_self _ _))
    rw [List.foldl_cons, ih _ (fun i hi => h i (List.mem_cons_of_mem _ hi)), WriteAt_sel, hx]
    simp

theorem foldl_WriteAt_lut (t : Nat → Nat) (screen : Int) (l : List Nat) :
    ∀ hw : HW, (∀ i ∈ l, i < 256) →
      ((l.foldl (fun hw i => WriteAt (t i) i screen hw) hw).sel screen).lut =
        fun j => if j ∈ l then t j else (hw.sel screen).lut j := by
  induction l with
  | nil => intro hw _; simp
  | cons x xs ih =>
    intro hw h
    have hx : x % 256 = x := Nat.mod_eq_of_lt (h x (List.mem_cons_self _ _))
    rw [List.foldl_cons, ih _ (fun i hi => h i (List.mem_cons_of_mem _ hi)), WriteAt_sel, hx]
    funext j
    by_cases h1 : j ∈ xs
    · simp [h1]
    · by_cases h2 : j = x
      · subst h2; simp [h1]
      · simp [h1, h2, Function.update_noteq h2]

theorem foldl_WriteAt_other (t : Nat → Nat) (screen : Int) (l : List Nat) :
    ∀ hw : HW, (l.foldl (fun hw i => WriteAt (t i) i screen hw) hw).other screen =
      hw.other screen := by
  induction l with
  | nil => intro hw; simp
  | cons x xs ih =>
    intro hw
    rw [List.foldl_cons, ih, WriteAt_other]

theorem range256_lt : ∀ i ∈ List.range 256, i < 256 := fun _ hi => List.mem_range.1 hi

theorem WriteAll_log (t : Nat → Nat) (screen : Int) (hw : HW) :
    (WriteAll t screen hw).log = hw.log ++ bulkTrace t screen := by
  rw [WriteAll_eq_foldl, foldl_WriteAt_log t screen _ hw range256_lt]
  rfl

theorem WriteAll_stored (t : Nat → Nat) (screen : Int) (hw : HW) :
    ((WriteAll t screen hw).sel screen).stored = (hw.sel screen).stored ++ List.range 256 := by
  rw [WriteAll_eq_foldl, foldl_WriteAt_stored t screen _ hw range256_lt]

theorem WriteAll_lut (t : Nat → Nat) (screen : Int) (hw : HW) :
    ((WriteAll t screen hw).sel screen).lut =
      fun j => if j < 256 then t j else (hw.sel screen).lut j := by
  rw [WriteAll_eq_foldl, foldl_WriteAt_lut t screen _ hw range256_lt]
  funext j
  simp [List.mem_range]

theorem WriteAll_other (t : Nat → Nat) (screen : Int) (hw : HW) :
    (WriteAll t screen hw).other screen = hw.other screen := by
  rw [WriteAll_eq_foldl, foldl_WriteAt_other]

theorem bulkTrace_congr (t t' : Nat → Nat) (screen : Int) (h : ∀ i < 256, t i = t' i) :
    bulkTrace t screen = bulkTrace t' screen := by
  unfold bulkTrace
  have key : ∀ l : List Nat, (∀ i ∈ l, i < 256) →
      l.flatMap (fun i => [(indexReg screen, i), (dataReg screen, t i)]) =
        l.flatMap (fun i => [(indexReg screen, i), (dataReg screen, t' i)]) := by
    intro l
    induction l with
    | nil => intro _; rfl
    | cons x xs ih =>
      intro hl
      simp only [List.flatMap_cons]
      rw [ih (fun i hi => hl i (List.mem_cons_of_mem _ hi)), h x (hl x (List.mem_cons_self _ _))]
  exact key _ range256_lt

theorem bulkTrace_addr (t : Nat → Nat) (screen : Int) :
    ∀ e ∈ bulkTrace t screen, e.1 = indexReg screen ∨ e.1 = dataReg screen := by
  intro e he
  simp only [bulkTrace, List.mem_flatMap, List.mem_cons, List.mem_singleton, List.not_mem_nil,
    or_false] at he
  obtain ⟨i, _, h | h⟩ := he
  · left; rw [h]
  · right; rw [h]

theorem bulkTrace_length (t : Nat → Nat) (screen : Int) :
    (bulkTrace t screen).length = 512 := by
  have key : ∀ l : List Nat,
      (l.flatMap (fun i => [(indexReg screen, i), (dataReg screen, t i)])).length =
        2 * l.length := by
    intro l
    induction l with
    | nil => rfl
    | cons x xs ih => simp only [List.flatMap_cons, List.length_append, ih]; simp; omega
  unfold bulkTrace
  rw [key]
  simp

/-! ## The `u8` loop: helper lemmas -/

theorem do_while_u8_eq {σ : Type} (body : Nat → σ → σ) (n : Nat) :
    ∀ (i : Nat) (s : σ), i + n = 255 →
      do_while_u8 body i s = (0, (List.range' i (n + 1)).foldl (fun s j => body j s) s) := by
  induction n with
  | zero =>
    intro i s hi
    have hi' : i = 255 := by omega
    subst hi'
    rw [do_while_u8]
    simp [List.range']
  | succ n ih =>
    intro i s hi
    rw [do_while_u8]
    have h1 : (i + 1) % 256 = i + 1 := Nat.mod_eq_of_lt (by omega)
    simp only [h1]
    rw [if_pos (by omega), ih (i + 1) _ (by omega)]
    rfl

theorem do_while_u8_zero {σ : Type} (body : Nat → σ → σ) (s : σ) :
    do_while_u8 body 0 s = (0, (List.range 256).foldl (fun s j => body j s) s) := by
  rw [do_while_u8_eq body 255 0 s (by omega), List.range_eq_range']

/-! ## Pipeline: helper lemmas -/

set_option maxRecDepth 100000 in
theorem identity_word (i : Nat) (hi : i < 256) :
    (i ||| (i <<< 8) ||| (i <<< 16)) % 4294967296 = i ||| (i <<< 8) ||| (i <<< 16) ∧
      i ||| (i <<< 8) ||| (i <<< 16) = 65793 * i ∧
      Px.ofU32 ((i ||| (i <<< 8) ||| (i <<< 16)) % 4294967296) = identityPx i ∧
      (identityPx i).toU32 = i ||| (i <<< 8) ||| (i <<< 16) := by
  revert i
  decide

set_option maxRecDepth 100000 in
theorem expand_value (v : Nat) (hv : v < 256) :
    (v ||| (v <<< 8)) % 65536 = v ||| (v <<< 8) ∧ v ||| (v <<< 8) = 257 * v ∧
      ((((v ||| (v <<< 8)) % 65536) % 65536) >>> 8) % 256 = v := by
  revert v
  decide

theorem identity_body_apply (px : Nat → Px) (i j : Nat) :
    identity_body i px j =
      if j = i then Px.ofU32 ((i ||| (i <<< 8) ||| (i <<< 16)) % 4294967296) else px j := by
  unfold identity_body
  rw [Function.update_apply]

theorem expand_body_apply (px : Nat → Px) (c : Nat → Nat) (i k : Nat) :
    expand_body px i c k =
      if k = i + 512 then ((px i).b ||| ((px i).b <<< 8)) % 65536
      else if k = i + 256 then ((px i).g ||| ((px i).g <<< 8)) % 65536
      else if k = i then ((px i).r ||| ((px i).r <<< 8)) % 65536
      else c k := by
  unfold expand_body
  simp only [Function.update_apply, Nat.add_zero]

theorem truncate_body_apply (c : Nat → Nat) (px : Nat → Px) (i j : Nat) :
    truncate_body c i px j =
      if j = i then
        { r := ((c i % 65536) >>> 8) % 256
          g := ((c (i + 256) % 65536) >>> 8) % 256
          b := ((c (i + 512) % 65536) >>> 8) % 256
          z := (px i).z }
      else px j := by
  unfold truncate_body
  simp only [Function.update_same, Function.update_idem, Function.update_apply, Nat.add_zero]
  by_cases h : j = i <;> simp [h]

theorem foldl_identity (px0 : Nat → Px) (n : Nat) (j : Nat) :
    ((List.range n).foldl (fun px i => identity_body i px) px0) j =
      if j < n then Px.ofU32 ((j ||| (j <<< 8) ||| (j <<< 16)) % 4294967296) else px0 j := by
  induction n with
  | zero => simp
  | succ n ih =>
    rw [List.range_succ, List.foldl_append, List.foldl_cons, List.foldl_nil,
      identity_body_apply, ih]
    split_ifs <;> first | rfl | omega | (subst_vars; rfl)

theorem foldl_expand (px : Nat → Px) (c0 : Nat → Nat) (n : Nat) (hn : n ≤ 256) (k : Nat) :
    ((List.range n).foldl (fun c i => expand_body px i c) c0) k =
      if k < n then ((px k).r ||| ((px k).r <<< 8)) % 65536
      else if 256 ≤ k ∧ k < 256 + n then
        ((px (k - 256)).g ||| ((px (k - 256)).g <<< 8)) % 65536
      else if 512 ≤ k ∧ k < 512 + n then
        ((px (k - 512)).b ||| ((px (k - 512)).b <<< 8)) % 65536
      else c0 k := by
  induction n with
  | zero =>
    simp only [List.range_zero, List.foldl_nil]
    split_ifs <;> first | rfl | omega
  | succ n ih =>
    rw [List.range_succ, List.foldl_append, List.foldl_cons, List.foldl_nil,
      expand_body_apply, ih (by omega)]
    by_cases h1 : k = n + 512
    · subst h1
      rw [if_pos rfl, if_neg (by omega), if_neg (by omega), if_pos (by omega),
        Nat.add_sub_cancel]
    · by_cases h2 : k = n + 256
      · subst h2
        rw [if_neg (by omega), if_pos rfl, if_neg (by omega), if_pos (by omega),
          Nat.add_sub_cancel]
      · by_cases h3 : k = n
        · subst h3
          rw [if_neg (by omega), if_neg (by omega), if_pos rfl, if_pos (by omega)]
        · simp only [h1, h2, h3, if_false]
          split_ifs <;> first | rfl | omega

theorem foldl_truncate (c : Nat → Nat) (px0 : Nat → Px) (n : Nat) (j : Nat) :
    ((List.range n).foldl (fun px i => truncate_body c i px) px0) j =
      if j < n then
        { r := ((c j % 65536) >>> 8) % 256
          g := ((c (j + 256) % 65536) >>> 8) % 256
          b := ((c (j + 512) % 65536) >>> 8) % 256
          z := (px0 j).z }
      else px0 j := by
  induction n with
  | zero => simp
  | succ n ih =>
    rw [List.range_succ, List.foldl_append, List.foldl_cons, List.foldl_nil,
      truncate_body_apply, ih]
    by_cases h : j = n
    · subst h
      simp [ih]
    · simp only [h, if_false]
      split_ifs <;> first | rfl | omega

theorem ApplyCS_prepare_counter (m : Scratch) : (ApplyCS_prepare m).1 = 0 := by
  simp only [ApplyCS_prepare, do_while_u8_zero]

theorem ApplyCS_prepare_px (m : Scratch) (j : Nat) :
    (ApplyCS_prepare m).2.1 j = if j < 256 then identityPx j else m.px j := by
  simp only [ApplyCS_prepare, do_while_u8_zero]
  rw [foldl_identity]
  by_cases h : j < 256
  · rw [if_pos h, if_pos h, (identity_word j h).2.2.1]
  · rw [if_neg h, if_neg h]

theorem ApplyCS_prepare_c (m : Scratch) (k : Nat) :
    (ApplyCS_prepare m).2.2 k =
      if k < 256 then 257 * k
      else if k < 512 then 257 * (k - 256)
      else if k < 768 then 257 * (k - 512)
      else m.c k := by
  have hpx : ∀ j, j < 256 →
      ((List.range 256).foldl (fun px i => identity_body i px) m.px) j = identityPx j := by
    intro j hj
    rw [foldl_identity, if_pos hj, (identity_word j hj).2.2.1]
  simp only [ApplyCS_prepare, do_while_u8_zero]
  rw [foldl_expand _ _ 256 (le_refl _)]
  by_cases h1 : k < 256
  · rw [if_pos h1, if_pos h1, hpx k h1]
    have e := expand_value k h1
    simp only [identityPx]
    rw [e.1, e.2.1]
  · rw [if_neg h1, if_neg h1]
    by_cases h2 : k < 512
    · have h3 : k - 256 < 256 := by omega
      rw [if_pos (by omega), if_pos h2, hpx _ h3]
      have e := expand_value (k - 256) h3
      simp only [identityPx]
      rw [e.1, e.2.1]
    · rw [if_neg (by omega), if_neg h2]
      by_cases h4 : k < 768
      · have h5 : k - 512 < 256 := by omega
        rw [if_pos (by omega), if_pos h4, hpx _ h5]
        have e := expand_value (k - 512) h5
        simp only [identityPx]
        rw [e.1, e.2.1]
      · rw [if_neg (by omega), if_neg h4]

theorem ApplyCS_curve (m : Scratch) : cells (ApplyCS_prepare m).2.2 = identityCurve := by
  funext k
  unfold cells identityCurve
  rw [ApplyCS_prepare_c]
  split_ifs <;> omega

/-- The entries handed to `WriteAll`: the high bytes of the curve returned by
`colorramp_fill` for the identity curve and the setting `cs` itself, padding 0. -/
theorem ApplyCS_px_apply (fill : (Nat → Nat) → color_setting_t → (Nat → Nat))
    (cs : color_setting_t) (m : Scratch) (j : Nat) (hj : j < 256) :
    ApplyCS_px fill cs m j =
      { r := ((fill identityCurve cs j % 65536) >>> 8) % 256
        g := ((fill identityCurve cs (j + 256) % 65536) >>> 8) % 256
        b := ((fill identityCurve cs (j + 512) % 65536) >>> 8) % 256
        z := 0 } := by
  simp only [ApplyCS_px, ApplyCS_prepare_counter, do_while_u8_zero, ApplyCS_curve]
  rw [foldl_truncate, if_pos hj, ApplyCS_prepare_px, if_pos hj]
  rfl

theorem ApplyCS_lut (fill : (Nat → Nat) → color_setting_t → (Nat → Nat))
    (cs : color_setting_t) (screen : Int) (m : Scratch) (hw : HW) :
    ((ApplyCS fill cs screen m hw).sel screen).lut =
      fun j => if j < 256 then (ApplyCS_px fill cs m j).toU32 else (hw.sel screen).lut j := by
  unfold ApplyCS
  rw [WriteAll_lut]

set_option maxRecDepth 100000 in
theorem truncate_value (v : Nat) (hv : v < 256) :
    ((257 * v % 65536) >>> 8) % 256 = v ∧ 257 * v < 65536 := by
  revert v
  decide

theorem bit_zero_iff (screen : Int) : int_and screen 1 = 0 ↔ screen % 2 = 0 := by
  rw [int_and_one]
  omega

theorem ClampCS_of_valid (B : Bounds) (s : color_setting_t) (h : s.valid B) :
    ClampCS B s = s := by
  obtain ⟨⟨ht1, ht2⟩, h0, h1, h2, hb⟩ := h
  rw [ClampCS_fields, clamp_int_of_mem _ _ _ ht1 ht2, clamp_f32_of_mem _ _ _ h0,
    clamp_f32_of_mem _ _ _ h1, clamp_f32_of_mem _ _ _ h2, clamp_f32_of_mem _ _ _ hb]

theorem sampleBounds_ordered : sampleBounds.ordered :=
  ⟨by decide, by decide, by decide⟩

theorem sampleLUT_bytes :
    ∀ i, i < 256 →
      (sampleLUT i).r < 256 ∧ (sampleLUT i).g < 256 ∧ (sampleLUT i).b < 256 := by
  intro i _
  simp only [sampleLUT]
  omega

/-! ## The claims -/

/-- C1. With the default setting and a curve generator that leaves the working
curve (the identity curve, `0x300` cells) unchanged on it, the entries that
`ApplyCS` hands to `WriteAll` are the identity ramp: entry `i` is `(i, i, i)`
with padding 0 for every `i < 256`, in particular entry 0 is `(0,0,0)` and
entry 255 is `(255,255,255)`; exactly 256 entries are written (512 register
accesses, the bulk trace of the identity ramp) and afterwards slot `i` of the
screen's LUT holds the identity word. -/
theorem ApplyCS_default_identity (B : Bounds)
    (fill : (Nat → Nat) → color_setting_t → (Nat → Nat)) (screen : Int) (m : Scratch)
    (hw : HW)
    (hfill : ∀ k, k < 0x300 → fill identityCurve (defaultCS B) k = identityCurve k) :
    (∀ i, i < 256 → ApplyCS_px fill (defaultCS B) m i = identityPx i) ∧
    ApplyCS_px fill (defaultCS B) m 0 = { r := 0, g := 0, b := 0, z := 0 } ∧
    ApplyCS_px fill (defaultCS B) m 255 = { r := 255, g := 255, b := 255, z := 0 } ∧
    (ApplyCS fill (defaultCS B) screen m hw).log =
      hw.log ++ bulkTrace (fun i => i ||| (i <<< 8) ||| (i <<< 16)) screen ∧
    (bulkTrace (fun i => i ||| (i <<< 8) ||| (i <<< 16)) screen).length = 2 * 256 ∧
    (∀ i, i < 256 → ((ApplyCS fill (defaultCS B) screen m hw).sel screen).lut i =
      i ||| (i <<< 8) ||| (i <<< 16)) := by
  have key : ∀ i, i < 256 → ApplyCS_px fill (defaultCS B) m i = identityPx i := by
    intro i hi
    rw [ApplyCS_px_apply fill _ m i hi, hfill i (by omega), hfill (i + 256) (by omega),
      hfill (i + 512) (by omega)]
    have h1 : identityCurve i = 257 * i := by
      unfold identityCurve; rw [if_pos hi]
    have h2 : identityCurve (i + 256) = 257 * i := by
      unfold identityCurve
      rw [if_neg (by omega), if_pos (by omega), Nat.add_sub_cancel]
    have h3 : identityCurve (i + 512) = 257 * i := by
      unfold identityCurve
      rw [if_neg (by omega), if_neg (by omega), if_pos (by omega), Nat.add_sub_cancel]
    rw [h1, h2, h3, (truncate_value i hi).1]
    rfl
  refine ⟨key, key 0 (by omega), key 255 (by omega), ?_, ?_, ?_⟩
  · unfold ApplyCS
    rw [WriteAll_log]
    congr 1
    apply bulkTrace_congr
    intro i hi
    show (ApplyCS_px fill (defaultCS B) m i).toU32 = i ||| (i <<< 8) ||| (i <<< 16)
    rw [key i hi, (identity_word i hi).2.2.2]
  · rw [bulkTrace_length]
  · intro i hi
    rw [ApplyCS_lut]
    simp only [hi, if_true]
    rw [key i hi, (identity_word i hi).2.2.2]

theorem ApplyCS_default_identity_witness :
    (∀ k, k < 0x300 → noop_fill identityCurve (defaultCS sampleBounds) k = identityCurve k) ∧
      ApplyCS_px noop_fill (defaultCS sampleBounds) sampleScratch 255 =
        { r := 255, g := 255, b := 255, z := 0 } :=
  ⟨fun _ _ => rfl,
    (ApplyCS_default_identity sampleBounds noop_fill 0 sampleScratch sampleHW
      (fun _ _ => rfl)).2.2.1⟩

/-- C2. Round trip: for every packed LUT whose `r`, `g`, `b` bytes are in
`0..255`, the expansion loop of `ApplyCS` followed by its truncation loop
recovers the bytes from the 16-bit values: whatever the destination entries
`px0` and the buffer `c` held before, entry `j < 256` of the result has the
`r`, `g`, `b` bytes of `lut j` and the padding byte of `px0 j` untouched, and
the entries from 256 on are not written. In particular, truncating into the
LUT itself, as `ApplyCS` does, gives back exactly the original LUT. -/
theorem Truncate_Expand_roundtrip (lut px0 : Nat → Px) (c0 : Nat → Nat)
    (h : ∀ i, i < 256 → (lut i).r < 256 ∧ (lut i).g < 256 ∧ (lut i).b < 256) :
    (∀ j, j < 256 →
      Truncate (Expand lut c0) px0 j =
        { r := (lut j).r, g := (lut j).g, b := (lut j).b, z := (px0 j).z }) ∧
    (∀ j, 256 ≤ j → Truncate (Expand lut c0) px0 j = px0 j) ∧
    Truncate (Expand lut c0) lut = lut := by
  have key : ∀ (dst : Nat → Px) (j : Nat),
      Truncate (Expand lut c0) dst j =
        if j < 256 then
          { r := (lut j).r, g := (lut j).g, b := (lut j).b, z := (dst j).z }
        else dst j := by
    intro dst j
    unfold Truncate Expand
    simp only [do_while_u8_zero]
    rw [foldl_truncate]
    by_cases hj : j < 256
    · obtain ⟨hr, hg, hb⟩ := h j hj
      rw [if_pos hj, if_pos hj, foldl_expand _ _ 256 (le_refl _),
        foldl_expand _ _ 256 (le_refl _), foldl_expand _ _ 256 (le_refl _)]
      rw [if_pos hj, if_neg (by omega), if_pos (by omega), if_neg (by omega),
        if_neg (by omega), if_pos (by omega), Nat.add_sub_cancel, Nat.add_sub_cancel]
      rw [(expand_value _ hr).2.2, (expand_value _ hg).2.2, (expand_value _ hb).2.2]
    · rw [if_neg hj, if_neg hj]
  refine ⟨?_, ?_, ?_⟩
  · intro j hj
    rw [key, if_pos hj]
  · intro j hj
    rw [key, if_neg (by omega)]
  · funext j
    rw [key]
    by_cases hj : j < 256
    · rw [if_pos hj]
    · rw [if_neg hj]

/-- Instance of the round trip at `sampleLUT`, truncating into entries that
held `(1, 2, 3, 4)`: entry 5 becomes `(5, 250, 7)` with the old padding 4. -/
theorem Truncate_Expand_roundtrip_witness :
    (∀ i, i < 256 →
        (sampleLUT i).r < 256 ∧ (sampleLUT i).g < 256 ∧ (sampleLUT i).b < 256) ∧
      Truncate (Expand sampleLUT sampleScratch.c) sampleScratch.px 5 =
        { r := 5, g := 250, b := 7, z := 4 } ∧
      Truncate (Expand sampleLUT sampleScratch.c) sampleLUT = sampleLUT :=
  ⟨sampleLUT_bytes,
    (Truncate_Expand_roundtrip sampleLUT sampleScratch.px sampleScratch.c sampleLUT_bytes).1 5
      (by decide),
    (Truncate_Expand_roundtrip sampleLUT sampleScratch.px sampleScratch.c sampleLUT_bytes).2.2⟩

/-- C3, as stated, fails: a NaN in `gamma[0]` passes both comparisons of
`ClampCS` and is left in place, so the result is outside `[MIN_GAMMA, MAX_GAMMA]`
and the range invariant does not hold after the clamp. -/
theorem ClampCS_nan_counterexample :
    (ClampCS sampleBounds nanSetting).gamma0.isNaN = true ∧
      F32.inRange sampleBounds.MIN_GAMMA sampleBounds.MAX_GAMMA
        (ClampCS sampleBounds nanSetting).gamma0 = false ∧
      ¬ (ClampCS sampleBounds nanSetting).valid sampleBounds := by
  refine ⟨by decide, by decide, ?_⟩
  intro h
  have h2 := h.2.1
  revert h2
  decide

/-- C3, amended. For well-ordered bounds and every setting, after `ClampCS` the
temperature lies in `[MIN_TEMP, MAX_TEMP]`; every gamma component and the
brightness that is not NaN lies within its bounds, and every field of the result
is the input field or one of its two bounds; a NaN field is returned as it is.
In particular a setting without NaN satisfies the range invariant after the
clamp. -/
theorem ClampCS_total_of_not_nan (B : Bounds) (hB : B.ordered) (s : color_setting_t) :
    (B.MIN_TEMP ≤ (ClampCS B s).temperature ∧ (ClampCS B s).temperature ≤ B.MAX_TEMP) ∧
    (s.gamma0.isNaN = false →
      F32.inRange B.MIN_GAMMA B.MAX_GAMMA (ClampCS B s).gamma0 = true) ∧
    (s.gamma1.isNaN = false →
      F32.inRange B.MIN_GAMMA B.MAX_GAMMA (ClampCS B s).gamma1 = true) ∧
    (s.gamma2.isNaN = false →
      F32.inRange B.MIN_GAMMA B.MAX_GAMMA (ClampCS B s).gamma2 = true) ∧
    (s.brightness.isNaN = false →
      F32.inRange B.MIN_BRIGHTNESS B.MAX_BRIGHTNESS (ClampCS B s).brightness = true) ∧
    ((ClampCS B s).gamma0 = s.gamma0 ∨ (ClampCS B s).gamma0 = B.MIN_GAMMA ∨
      (ClampCS B s).gamma0 = B.MAX_GAMMA) ∧
    ((ClampCS B s).gamma1 = s.gamma1 ∨ (ClampCS B s).gamma1 = B.MIN_GAMMA ∨
      (ClampCS B s).gamma1 = B.MAX_GAMMA) ∧
    ((ClampCS B s).gamma2 = s.gamma2 ∨ (ClampCS B s).gamma2 = B.MIN_GAMMA ∨
      (ClampCS B s).gamma2 = B.MAX_GAMMA) ∧
    ((ClampCS B s).brightness = s.brightness ∨ (ClampCS B s).brightness = B.MIN_BRIGHTNESS ∨
      (ClampCS B s).brightness = B.MAX_BRIGHTNESS) ∧
    (s.gamma0.isNaN = true → (ClampCS B s).gamma0 = s.gamma0) ∧
    (s.gamma1.isNaN = true → (ClampCS B s).gamma1 = s.gamma1) ∧
    (s.gamma2.isNaN = true → (ClampCS B s).gamma2 = s.gamma2) ∧
    (s.brightness.isNaN = true → (ClampCS B s).brightness = s.brightness) ∧
    (s.gamma0.isNaN = false → s.gamma1.isNaN = false → s.gamma2.isNaN = false →
      s.brightness.isNaN = false → (ClampCS B s).valid B) := by
  obtain ⟨hT, hG, hBr⟩ := hB
  rw [ClampCS_fields]
  refine ⟨clamp_int_mem _ _ _ hT, clamp_f32_mem _ _ _ hG, clamp_f32_mem _ _ _ hG,
    clamp_f32_mem _ _ _ hG, clamp_f32_mem _ _ _ hBr, clamp_f32_choice _ _ _,
    clamp_f32_choice _ _ _, clamp_f32_choice _ _ _, clamp_f32_choice _ _ _,
    clamp_f32_nan _ _ _, clamp_f32_nan _ _ _, clamp_f32_nan _ _ _, clamp_f32_nan _ _ _, ?_⟩
  intro h0 h1 h2 hb
  exact ⟨clamp_int_mem _ _ _ hT, clamp_f32_mem _ _ _ hG h0, clamp_f32_mem _ _ _ hG h1,
    clamp_f32_mem _ _ _ hG h2, clamp_f32_mem _ _ _ hBr hb⟩

theorem ClampCS_total_of_not_nan_witness :
    sampleBounds.ordered ∧ (ClampCS sampleBounds wildSetting).valid sampleBounds :=
  ⟨sampleBounds_ordered,
    (ClampCS_total_of_not_nan sampleBounds sampleBounds_ordered
      wildSetting).2.2.2.2.2.2.2.2.2.2.2.2.2
      (by decide) (by decide) (by decide) (by decide)⟩

/-- C5. `ClampCS` narrows field by field (bounds well ordered): every field of
the result depends on the same field of the input alone; a field within its
bounds is returned unchanged, so a setting satisfying the range invariant is a
fixed point; a field below its minimum becomes the minimum and a field above
its maximum becomes the maximum. -/
theorem ClampCS_narrows_fieldwise (B : Bounds) (hB : B.ordered) (s : color_setting_t) :
    (∀ s' : color_setting_t,
      (s'.temperature = s.temperature →
        (ClampCS B s').temperature = (ClampCS B s).temperature) ∧
      (s'.gamma0 = s.gamma0 → (ClampCS B s').gamma0 = (ClampCS B s).gamma0) ∧
      (s'.gamma1 = s.gamma1 → (ClampCS B s').gamma1 = (ClampCS B s).gamma1) ∧
      (s'.gamma2 = s.gamma2 → (ClampCS B s').gamma2 = (ClampCS B s).gamma2) ∧
      (s'.brightness = s.brightness →
        (ClampCS B s').brightness = (ClampCS B s).brightness)) ∧
    ((B.MIN_TEMP ≤ s.temperature ∧ s.temperature ≤ B.MAX_TEMP →
        (ClampCS B s).temperature = s.temperature) ∧
      (F32.inRange B.MIN_GAMMA B.MAX_GAMMA s.gamma0 = true → (ClampCS B s).gamma0 = s.gamma0) ∧
      (F32.inRange B.MIN_GAMMA B.MAX_GAMMA s.gamma1 = true → (ClampCS B s).gamma1 = s.gamma1) ∧
      (F32.inRange B.MIN_GAMMA B.MAX_GAMMA s.gamma2 = true → (ClampCS B s).gamma2 = s.gamma2) ∧
      (F32.inRange B.MIN_BRIGHTNESS B.MAX_BRIGHTNESS s.brightness = true →
        (ClampCS B s).brightness = s.brightness)) ∧
    (s.valid B → ClampCS B s = s) ∧
    ((s.temperature < B.MIN_TEMP → (ClampCS B s).temperature = B.MIN_TEMP) ∧
      (F32.lt s.gamma0 B.MIN_GAMMA = true → (ClampCS B s).gamma0 = B.MIN_GAMMA) ∧
      (F32.lt s.gamma1 B.MIN_GAMMA = true → (ClampCS B s).gamma1 = B.MIN_GAMMA) ∧
      (F32.lt s.gamma2 B.MIN_GAMMA = true → (ClampCS B s).gamma2 = B.MIN_GAMMA) ∧
      (F32.lt s.brightness B.MIN_BRIGHTNESS = true →
        (ClampCS B s).brightness = B.MIN_BRIGHTNESS)) ∧
    ((s.temperature > B.MAX_TEMP → (ClampCS B s).temperature = B.MAX_TEMP) ∧
      (F32.gt s.gamma0 B.MAX_GAMMA = true → (ClampCS B s).gamma0 = B.MAX_GAMMA) ∧
      (F32.gt s.gamma1 B.MAX_GAMMA = true → (ClampCS B s).gamma1 = B.MAX_GAMMA) ∧
      (F32.gt s.gamma2 B.MAX_GAMMA = true → (ClampCS B s).gamma2 = B.MAX_GAMMA) ∧
      (F32.gt s.brightness B.MAX_BRIGHTNESS = true →
        (ClampCS B s).brightness = B.MAX_BRIGHTNESS)) := by
  obtain ⟨hT, hG, hBr⟩ := hB
  refine ⟨?_, ?_, ClampCS_of_valid B s, ?_, ?_⟩
  · intro s'
    rw [ClampCS_fields B s, ClampCS_fields B s']
    refine ⟨?_, ?_, ?_, ?_, ?_⟩ <;> intro h <;> simp only [h]
  · rw [ClampCS_fields]
    exact ⟨fun h => clamp_int_of_mem _ _ _ h.1 h.2, clamp_f32_of_mem _ _ _,
      clamp_f32_of_mem _ _ _, clamp_f32_of_mem _ _ _, clamp_f32_of_mem _ _ _⟩
  · rw [ClampCS_fields]
    exact ⟨clamp_int_below _ _ _ hT, clamp_f32_below _ _ _ hG, clamp_f32_below _ _ _ hG,
      clamp_f32_below _ _ _ hG, clamp_f32_below _ _ _ hBr⟩
  · rw [ClampCS_fields]
    exact ⟨clamp_int_above _ _ _, clamp_f32_above _ _ _, clamp_f32_above _ _ _,
      clamp_f32_above _ _ _, clamp_f32_above _ _ _⟩

theorem ClampCS_narrows_fieldwise_witness :
    sampleBounds.ordered ∧ (defaultCS sampleBounds).valid sampleBounds ∧
      ClampCS sampleBounds (defaultCS sampleBounds) = defaultCS sampleBounds ∧
      (ClampCS sampleBounds wildSetting).temperature = 25000 ∧
      (ClampCS sampleBounds wildSetting).gamma0 = sampleBounds.MIN_GAMMA ∧
      (ClampCS sampleBounds wildSetting).gamma1 = sampleBounds.MAX_GAMMA :=
  ⟨sampleBounds_ordered, ⟨by decide, by decide, by decide, by decide, by decide⟩,
    (ClampCS_narrows_fieldwise sampleBounds sampleBounds_ordered
      (defaultCS sampleBounds)).2.2.1 ⟨by decide, by decide, by decide, by decide, by decide⟩,
    (ClampCS_narrows_fieldwise sampleBounds sampleBounds_ordered wildSetting).2.2.2.2.1
      (by decide),
    (ClampCS_narrows_fieldwise sampleBounds sampleBounds_ordered wildSetting).2.2.2.1.2.1
      (by decide),
    (ClampCS_narrows_fieldwise sampleBounds sampleBounds_ordered wildSetting).2.2.2.2.2.2.1
      (by decide)⟩

/-- C6. `ClampCS` is idempotent: clamping a clamped setting returns it
unchanged in all five fields, for every setting (NaN included, compared as bit
patterns) and every choice of bounds. -/
theorem ClampCS_idempotent (B : Bounds) (S : color_setting_t) :
    ClampCS B (ClampCS B S) = ClampCS B S := by
  rw [ClampCS_fields B S, ClampCS_fields]
  simp only [clamp_int_idem, clamp_f32_idem]

/-- C4. `ApplyCS` never compounds: on the register model, the LUT of the
screen after `ApplyCS(s1)` followed by `ApplyCS(s2)` is the LUT after
`ApplyCS(s2)` alone; applying the same setting twice leaves the LUT of one
application; and the 256 slots written do not depend on the hardware state or
the heap content met by the call. -/
theorem ApplyCS_never_compounds (fill : (Nat → Nat) → color_setting_t → (Nat → Nat))
    (s1 s2 : color_setting_t) (screen : Int) (m1 m2 m : Scratch) (h h' : HW) :
    ((ApplyCS fill s2 screen m2 (ApplyCS fill s1 screen m1 h)).sel screen).lut =
      ((ApplyCS fill s2 screen m h).sel screen).lut ∧
    ((ApplyCS fill s1 screen m2 (ApplyCS fill s1 screen m1 h)).sel screen).lut =
      ((ApplyCS fill s1 screen m1 h).sel screen).lut ∧
    (∀ i, i < 256 → ((ApplyCS fill s2 screen m h).sel screen).lut i =
      ((ApplyCS fill s2 screen m2 h').sel screen).lut i) := by
  have indep : ∀ (cs : color_setting_t) (a b : Scratch) (j : Nat), j < 256 →
      (ApplyCS_px fill cs a j).toU32 = (ApplyCS_px fill cs b j).toU32 := by
    intro cs a b j hj
    rw [ApplyCS_px_apply fill cs a j hj, ApplyCS_px_apply fill cs b j hj]
  refine ⟨?_, ?_, ?_⟩
  · funext j
    rw [ApplyCS_lut, ApplyCS_lut, ApplyCS_lut]
    by_cases hj : j < 256
    · simp only [hj, if_true]
      exact indep s2 m2 m j hj
    · simp only [hj, if_false]
  · funext j
    rw [ApplyCS_lut, ApplyCS_lut]
    by_cases hj : j < 256
    · simp only [hj, if_true]
      exact indep s1 m2 m1 j hj
    · simp only [hj, if_false]
  · intro j hj
    rw [ApplyCS_lut, ApplyCS_lut]
    simp only [hj, if_true]
    exact indep s2 m m2 j hj

/-- C7. `WriteAll` is exactly 256 iterations of `WriteAt`, for the indices
`0, 1, ..., 255` in increasing order; each iteration writes the index (a value
in `0..255`) to the screen's index register and then the table word to its data
register, 512 accesses in all; on the register model the slots stored into are
`0, 1, ..., 255` in this order, none twice, and afterwards slot `i` holds
`t[i]` for every `i < 256`. -/
theorem WriteAll_order_and_count (t : Nat → Nat) (screen : Int) (hw : HW) :
    WriteAll t screen hw =
      (List.range 256).foldl (fun hw i => WriteAt (t i) i screen hw) hw ∧
    (List.range 256).length = 256 ∧
    List.Pairwise (fun a b => a < b) (List.range 256) ∧
    (∀ (d i : Nat) (hw' : HW), i < 256 →
      (WriteAt d i screen hw').log = hw'.log ++ [(indexReg screen, i), (dataReg screen, d)]) ∧
    (WriteAll t screen hw).log = hw.log ++ bulkTrace t screen ∧
    (bulkTrace t screen).length = 2 * 256 ∧
    ((WriteAll t screen hw).sel screen).stored = (hw.sel screen).stored ++ List.range 256 ∧
    (List.range 256).Nodup ∧
    (∀ i, i < 256 → ((WriteAll t screen hw).sel screen).lut i = t i) := by
  refine ⟨WriteAll_eq_foldl t screen hw, List.length_range 256, List.pairwise_lt_range 256, ?_,
    WriteAll_log t screen hw, bulkTrace_length t screen, WriteAll_stored t screen hw,
    List.nodup_range 256, ?_⟩
  · intro d i hw' hi
    rw [WriteAt_log, Nat.mod_eq_of_lt hi]
  · intro i hi
    rw [WriteAll_lut]
    simp only [hi, if_true]

/-- C8. Screen independence: the register pair is chosen by the low bit of the
selector (`0x400480`/`0x400484` when it is 0, `0x400580`/`0x400584` when it is
1); `WriteAt`, `WriteAll` and `ApplyCS` write to no other register, and the
registers and LUT of the other screen are unchanged by the call. -/
theorem screen_independence (fill : (Nat → Nat) → color_setting_t → (Nat → Nat))
    (cs : color_setting_t) (t : Nat → Nat) (d i : Nat) (screen : Int) (m : Scratch) (hw : HW) :
    (indexReg screen = if screen % 2 = 0 then 0x400480 else 0x400580) ∧
    (dataReg screen = if screen % 2 = 0 then 0x400484 else 0x400584) ∧
    (hw.sel screen = if screen % 2 = 0 then hw.scr0 else hw.scr1) ∧
    (hw.other screen = if screen % 2 = 0 then hw.scr1 else hw.scr0) ∧
    ((WriteAt d i screen hw).log =
        hw.log ++ [(indexReg screen, i % 256), (dataReg screen, d)] ∧
      (WriteAt d i screen hw).other screen = hw.other screen) ∧
    ((WriteAll t screen hw).log = hw.log ++ bulkTrace t screen ∧
      (∀ e ∈ bulkTrace t screen, e.1 = indexReg screen ∨ e.1 = dataReg screen) ∧
      (WriteAll t screen hw).other screen = hw.other screen) ∧
    ((ApplyCS fill cs screen m hw).log =
        hw.log ++ bulkTrace (fun k => (ApplyCS_px fill cs m k).toU32) screen ∧
      (∀ e ∈ bulkTrace (fun k => (ApplyCS_px fill cs m k).toU32) screen,
        e.1 = indexReg screen ∨ e.1 = dataReg screen) ∧
      (ApplyCS fill cs screen m hw).other screen = hw.other screen) := by
  refine ⟨?_, ?_, ?_, ?_, ⟨WriteAt_log d i screen hw, WriteAt_other d i screen hw⟩,
    ⟨WriteAll_log t screen hw, bulkTrace_addr t screen, WriteAll_other t screen hw⟩,
    ⟨WriteAll_log _ screen hw, bulkTrace_addr _ screen, WriteAll_other _ screen hw⟩⟩
  · unfold indexReg
    by_cases h : screen % 2 = 0
    · rw [if_neg (not_not.2 ((bit_zero_iff screen).2 h)), if_pos h]
    · rw [if_pos (fun h' => h ((bit_zero_iff screen).1 h')), if_neg h]
  · unfold dataReg
    by_cases h : screen % 2 = 0
    · rw [if_neg (not_not.2 ((bit_zero_iff screen).2 h)), if_pos h]
    · rw [if_pos (fun h' => h ((bit_zero_iff screen).1 h')), if_neg h]
  · unfold HW.sel
    by_cases h : screen % 2 = 0
    · rw [if_neg (not_not.2 ((bit_zero_iff screen).2 h)), if_pos h]
    · rw [if_pos (fun h' => h ((bit_zero_iff screen).1 h')), if_neg h]
  · unfold HW.other
    by_cases h : screen % 2 = 0
    · rw [if_neg (not_not.2 ((bit_zero_iff screen).2 h)), if_pos h]
    · rw [if_pos (fun h' => h ((bit_zero_iff screen).1 h')), if_neg h]

/-- C9, as stated, fails: `ApplyCS` hands the setting it is given to the curve
generator, without clamping. With a generator that writes the temperature into
the curve, the out-of-range temperature 30000 K reaches it (byte `117`), while
the clamped setting gives 25000 K (byte `97`): the two LUTs differ in slot 0. -/
theorem ApplyCS_unclamped_counterexample :
    ((ApplyCS probe_fill wildSetting 0 sampleScratch sampleHW).sel 0).lut 0 = 7697781 ∧
      ((ApplyCS probe_fill (ClampCS sampleBounds wildSetting) 0 sampleScratch sampleHW).sel
        0).lut 0 = 6381921 ∧
      ((ApplyCS probe_fill wildSetting 0 sampleScratch sampleHW).sel 0).lut ≠
        ((ApplyCS probe_fill (ClampCS sampleBounds wildSetting) 0 sampleScratch
          sampleHW).sel 0).lut := by
  have hT : (ClampCS sampleBounds wildSetting).temperature = 25000 := by decide
  have h1 : ((ApplyCS probe_fill wildSetting 0 sampleScratch sampleHW).sel 0).lut 0
      = 7697781 := by
    rw [ApplyCS_lut]
    simp only [Nat.lt_add_one, Nat.zero_lt_succ, if_true]
    rw [ApplyCS_px_apply _ _ _ 0 (by omega)]
    decide
  have h2 : ((ApplyCS probe_fill (ClampCS sampleBounds wildSetting) 0 sampleScratch
      sampleHW).sel 0).lut 0 = 6381921 := by
    rw [ApplyCS_lut]
    simp only [Nat.lt_add_one, Nat.zero_lt_succ, if_true]
    rw [ApplyCS_px_apply _ _ _ 0 (by omega)]
    simp only [probe_fill, hT]
    decide
  refine ⟨h1, h2, ?_⟩
  intro h
  have h3 := congrFun h 0
  rw [h1, h2] at h3
  exact absurd h3 (by decide)

/-- C9, amended. `ApplyCS` runs the curve generator on the identity curve with
the setting exactly as received; the clamp is done by the caller: the step of
the main loop calls `ClampCS` first and passes `ClampCS(s)` to every `ApplyCS`
call. For a setting that satisfies the range invariant, `ApplyCS(s, screen)`
is `ApplyCS(ClampCS(s), screen)`. -/
theorem ApplyCS_setting_as_received (B : Bounds)
    (fill : (Nat → Nat) → color_setting_t → (Nat → Nat)) (s : color_setting_t)
    (screen : Int) (kDown kHeld : Nat) (m m1 m2 : Scratch) (hw : HW) :
    (∀ j, j < 256 → ApplyCS_px fill s m j =
      { r := ((fill identityCurve s j % 65536) >>> 8) % 256
        g := ((fill identityCurve s (j + 256) % 65536) >>> 8) % 256
        b := ((fill identityCurve s (j + 512) % 65536) >>> 8) % 256
        z := 0 }) ∧
    (s.valid B → ApplyCS fill s screen m hw = ApplyCS fill (ClampCS B s) screen m hw) ∧
    (kDown ≠ 0 →
      main_apply B fill kDown kHeld s m1 m2 hw =
        (ClampCS B s,
          if kHeld &&& KEY_B ≠ 0 then
            ApplyCS fill (ClampCS B s) 0 m2
              (if kHeld &&& KEY_A ≠ 0 then ApplyCS fill (ClampCS B s) 1 m1 hw else hw)
          else (if kHeld &&& KEY_A ≠ 0 then ApplyCS fill (ClampCS B s) 1 m1 hw else hw))) := by
  refine ⟨fun j hj => ApplyCS_px_apply fill s m j hj, ?_, ?_⟩
  · intro h
    rw [ClampCS_of_valid B s h]
  · intro h
    unfold main_apply
    rw [if_pos h]

theorem ApplyCS_setting_as_received_witness :
    (defaultCS sampleBounds).valid sampleBounds ∧
      ApplyCS probe_fill (defaultCS sampleBounds) 1 sampleScratch sampleHW =
        ApplyCS probe_fill (ClampCS sampleBounds (defaultCS sampleBounds)) 1 sampleScratch
          sampleHW :=
  ⟨⟨by decide, by decide, by decide, by decide, by decide⟩,
    (ApplyCS_setting_as_received sampleBounds probe_fill (defaultCS sampleBounds) 1 1 1
      sampleScratch sampleScratch sampleScratch sampleHW).2.1
      ⟨by decide, by decide, by decide, by decide, by decide⟩⟩

/-- C10. A `do ... while(++i)` loop on the `u8` counter entered with `i = 0`
runs its body for `i = 0, 1, ..., 255` in this order, 256 times, and leaves
`i = 0`. After the identity fill and the expansion of `ApplyCS`, whatever the
heap held, the counter is 0 and for every `i < 256` the packed entry is
`i | (i << 8) | (i << 16)` (`r = g = b = i`, padding 0) and `c[i]`,
`c[0x100 + i]`, `c[0x200 + i]` all equal `i | (i << 8) = 257 * i < 65536`, so
that 0 maps to 0 and 255 to 65535. -/
theorem ApplyCS_working_curve (m : Scratch) :
    (∀ (σ : Type) (body : Nat → σ → σ) (s : σ),
      do_while_u8 body 0 s = (0, (List.range 256).foldl (fun s j => body j s) s)) ∧
    do_while_u8 (fun i (visited : List Nat) => visited ++ [i]) 0 [] = (0, List.range 256) ∧
    (List.range 256).length = 256 ∧
    List.Pairwise (fun a b => a < b) (List.range 256) ∧
    (ApplyCS_prepare m).1 = 0 ∧
    (∀ i, i < 256 →
      ((ApplyCS_prepare m).2.1 i).toU32 = i ||| (i <<< 8) ||| (i <<< 16) ∧
      (ApplyCS_prepare m).2.1 i = { r := i, g := i, b := i, z := 0 } ∧
      (ApplyCS_prepare m).2.2 i = i ||| (i <<< 8) ∧
      (ApplyCS_prepare m).2.2 (0x100 + i) = i ||| (i <<< 8) ∧
      (ApplyCS_prepare m).2.2 (0x200 + i) = i ||| (i <<< 8) ∧
      i ||| (i <<< 8) = 257 * i ∧ 257 * i < 65536) ∧
    (ApplyCS_prepare m).2.2 0 = 0 ∧ (ApplyCS_prepare m).2.2 255 = 65535 := by
  refine ⟨fun σ body s => do_while_u8_zero body s, ?_, List.length_range 256,
    List.pairwise_lt_range 256, ApplyCS_prepare_counter m, ?_, ?_, ?_⟩
  · have key : ∀ (l acc : List Nat),
        l.foldl (fun (visited : List Nat) j => visited ++ [j]) acc = acc ++ l := by
      intro l
      induction l with
      | nil => intro acc; simp
      | cons x xs ih => intro acc; rw [List.foldl_cons, ih]; simp
    rw [do_while_u8_zero, key, List.nil_append]
  · intro i hi
    have e := expand_value i hi
    refine ⟨?_, ?_, ?_, ?_, ?_, e.2.1, (truncate_value i hi).2⟩
    · rw [ApplyCS_prepare_px, if_pos hi, (identity_word i hi).2.2.2]
    · rw [ApplyCS_prepare_px, if_pos hi]
      rfl
    · rw [ApplyCS_prepare_c, if_pos hi, e.2.1]
    · rw [ApplyCS_prepare_c, if_neg (by omega), if_pos (by omega), e.2.1]
      omega
    · rw [ApplyCS_prepare_c, if_neg (by omega), if_neg (by omega), if_pos (by omega), e.2.1]
      omega
  · rw [ApplyCS_prepare_c, if_pos (by omega)]
  · rw [ApplyCS_prepare_c, if_pos (by omega)]

end CTRRedshift
